import Mathlib

/-!
Shallow embedding of the `ara-lang/reporting` diagnostic core
(src/lib.rs, src/issue.rs, src/annotation.rs, src/builder.rs, src/error.rs,
src/source.rs), together with theorems settling the frozen claims about it.

Rust `usize` values (byte offsets, counts, file ids) are modelled as `Nat`;
they are never subtracted below zero or overflowed by the code under study.
Strings are modelled as Lean `String`; source text, where byte-level UTF-8
structure matters, is modelled as a `List Char` together with the UTF-8 byte
width of each scalar value.
-/

set_option autoImplicit false

namespace AraReporting

/-- Rust `IssueSeverity` from src/issue.rs. The variant order of the Rust enum
(`Note, Help, Warning, Error, Bug`) is the derived `Ord` order. -/
inductive IssueSeverity where
  | note
  | help
  | warning
  | error
  | bug
deriving DecidableEq, Repr

/-- The rank of a severity in the derived Rust `Ord`: the declaration order
Note < Help < Warning < Error < Bug of src/issue.rs. -/
def IssueSeverity.rank : IssueSeverity → Nat
  | .note => 0
  | .help => 1
  | .warning => 2
  | .error => 3
  | .bug => 4

/-- Rust `impl Display for IssueSeverity` (src/issue.rs lines 273-283): the
lowercase severity names. -/
def IssueSeverity.str : IssueSeverity → String
  | .error => "error"
  | .warning => "warning"
  | .help => "help"
  | .note => "note"
  | .bug => "bug"

/-- Rust `Severity` of the external `codespan_reporting::diagnostic` module, the
target of the `From<IssueSeverity>` conversion. -/
inductive Severity where
  | bug
  | error
  | warning
  | note
  | help
deriving DecidableEq, Repr

/-- Rust `impl From<IssueSeverity> for Severity` (src/issue.rs lines 248-258). -/
def IssueSeverity.toSeverity : IssueSeverity → Severity
  | .error => .error
  | .warning => .warning
  | .note => .note
  | .help => .help
  | .bug => .bug

/-- Rust `AnnotationType` from src/annotation.rs. -/
inductive AnnotationType where
  | primary
  | secondary
deriving DecidableEq, Repr

/-- Rust `LabelStyle` of the external `codespan_reporting::diagnostic` module. -/
inductive LabelStyle where
  | primary
  | secondary
deriving DecidableEq, Repr

/-- Rust `Annotation` from src/annotation.rs. The Rust fields `from`/`to` are named
`fromOffset`/`toOffset` (`from` is a Lean keyword); `r#type` is `type`. -/
structure Annotation where
  message : Option String
  type : AnnotationType
  origin : String
  fromOffset : Nat
  toOffset : Nat
deriving DecidableEq, Repr

/-- Rust `Annotation::new` (src/annotation.rs lines 39-47). -/
def Annotation.new (type : AnnotationType) (origin : String)
    (fromOffset toOffset : Nat) : Annotation :=
  { type := type, message := none, origin := origin,
    fromOffset := fromOffset, toOffset := toOffset }

/-- Rust `Annotation::primary` (src/annotation.rs lines 61-63). -/
def Annotation.primary (origin : String) (fromOffset toOffset : Nat) : Annotation :=
  Annotation.new .primary origin fromOffset toOffset

/-- Rust `Annotation::secondary` (src/annotation.rs lines 77-79). -/
def Annotation.secondary (origin : String) (fromOffset toOffset : Nat) : Annotation :=
  Annotation.new .secondary origin fromOffset toOffset

/-- Rust `Annotation::with_message` (src/annotation.rs lines 94-98). -/
def Annotation.with_message (a : Annotation) (message : String) : Annotation :=
  { a with message := some message }

/-- Rust `Issue` from src/issue.rs. `source` is the optional primary span
`(origin, from, to)`. -/
structure Issue where
  severity : IssueSeverity
  code : Option String
  message : String
  source : Option (String × Nat × Nat)
  annotations : List Annotation
  notes : List String
deriving DecidableEq, Repr

/-- Rust `Issue::new` (src/issue.rs lines 66-75). -/
def Issue.new (severity : IssueSeverity) (message : String) : Issue :=
  { severity := severity, code := none, message := message,
    source := none, annotations := [], notes := [] }

/-- Rust `Issue::with_code` (src/issue.rs lines 181-185). -/
def Issue.with_code (i : Issue) (code : String) : Issue :=
  { i with code := some code }

/-- Rust `Issue::error` (src/issue.rs lines 90-92). -/
def Issue.error (code message : String) : Issue :=
  (Issue.new .error message).with_code code

/-- Rust `Issue::warning` (src/issue.rs lines 107-109). -/
def Issue.warning (code message : String) : Issue :=
  (Issue.new .warning message).with_code code

/-- Rust `Issue::help` (src/issue.rs lines 124-126). -/
def Issue.help (code message : String) : Issue :=
  (Issue.new .help message).with_code code

/-- Rust `Issue::note` (src/issue.rs lines 141-143). -/
def Issue.note (code message : String) : Issue :=
  (Issue.new .note message).with_code code

/-- Rust `Issue::bug` (src/issue.rs lines 158-160). -/
def Issue.bug (code message : String) : Issue :=
  (Issue.new .bug message).with_code code

/-- Rust `Issue::with_annotation` (src/issue.rs lines 189-193). -/
def Issue.with_annotation (i : Issue) (a : Annotation) : Issue :=
  { i with annotations := i.annotations ++ [a] }

/-- Rust `Issue::with_note` (src/issue.rs lines 197-201). -/
def Issue.with_note (i : Issue) (note : String) : Issue :=
  { i with notes := i.notes ++ [note] }

/-- Rust `Issue::with_source` (src/issue.rs lines 205-209). -/
def Issue.with_source (i : Issue) (source : String) (fromOffset toOffset : Nat) : Issue :=
  { i with source := some (source, fromOffset, toOffset) }

/-- Rust `ReportFooter` from src/lib.rs lines 17-21. -/
structure ReportFooter where
  message : String
  notes : List String
  summary : Bool
deriving DecidableEq, Repr

/-- Rust `ReportFooter::new` (src/lib.rs lines 178-184). -/
def ReportFooter.new (message : String) : ReportFooter :=
  { message := message, notes := [], summary := true }

/-- Rust `ReportFooter::with_note` (src/lib.rs lines 188-192). -/
def ReportFooter.with_note (f : ReportFooter) (note : String) : ReportFooter :=
  { f with notes := f.notes ++ [note] }

/-- Rust `ReportFooter::with_summary` (src/lib.rs lines 196-200). -/
def ReportFooter.with_summary (f : ReportFooter) (enabled : Bool) : ReportFooter :=
  { f with summary := enabled }

/-- Rust `Report` from src/lib.rs lines 25-28. -/
structure Report where
  issues : List Issue
  footer : Option ReportFooter
deriving DecidableEq, Repr

/-- Rust `Report::new` (src/lib.rs lines 66-71). -/
def Report.new : Report :=
  { issues := [], footer := none }

/-- Rust `Report::with_issue` (src/lib.rs lines 75-79). -/
def Report.with_issue (r : Report) (i : Issue) : Report :=
  { r with issues := r.issues ++ [i] }

/-- Rust `Report::with_footer` (src/lib.rs lines 83-87). -/
def Report.with_footer (r : Report) (f : ReportFooter) : Report :=
  { r with footer := some f }

/-- One step of Rust's `Iterator::max` over severities (derived `Ord`): keep
the accumulated maximum, preferring the later element on ties. -/
def severityMaxStep (acc : Option IssueSeverity) (s : IssueSeverity) :
    Option IssueSeverity :=
  match acc with
  | none => some s
  | some m => if m.rank ≤ s.rank then some s else some m

/-- Rust's `Iterator::max` over severities: a left fold of `severityMaxStep`
starting from `none`, so the empty list yields `none`. -/
def severityMax (l : List IssueSeverity) : Option IssueSeverity :=
  l.foldl severityMaxStep none

/-- Rust `Report::severity` (src/lib.rs lines 120-122):
`self.issues.iter().map(|issue| issue.severity).max()`. -/
def Report.severity (r : Report) : Option IssueSeverity :=
  severityMax (r.issues.map Issue.severity)

/-- The first `write!` of `impl Display for Issue` (src/issue.rs lines
305-308): `{severity}[{code}]: {message}` when a code is present,
`{severity}: {message}` otherwise. -/
def Issue.header (i : Issue) : String :=
  match i.code with
  | some code => i.severity.str ++ "[" ++ code ++ "]: " ++ i.message
  | none => i.severity.str ++ ": " ++ i.message

/-- The second `write!` of `impl Display for Issue` (src/issue.rs lines
310-312): ` at {source}@{from}:{to}` when a primary span is present. -/
def Issue.locationSuffix (i : Issue) : String :=
  match i.source with
  | some (source, fromOffset, toOffset) =>
    " at " ++ source ++ "@" ++ toString fromOffset ++ ":" ++ toString toOffset
  | none => ""

/-- Rust `impl Display for Issue` (src/issue.rs lines 303-316). -/
def Issue.display (i : Issue) : String :=
  i.header ++ i.locationSuffix

/-- The `AnnotationType` to `LabelStyle` translation inlined in
`ReportBuilder::diagnostics` (src/builder.rs lines 310-313). -/
def AnnotationType.toLabelStyle : AnnotationType → LabelStyle
  | .primary => .primary
  | .secondary => .secondary

/-- Rust `Label` of the external `codespan_reporting::diagnostic` module, as
constructed in `ReportBuilder::diagnostics`. -/
structure Label where
  style : LabelStyle
  fileId : Nat
  rangeStart : Nat
  rangeEnd : Nat
  message : Option String
deriving DecidableEq, Repr

/-- Rust `Diagnostic` of the external `codespan_reporting::diagnostic` module, as
constructed in `ReportBuilder::diagnostics`. -/
structure Diagnostic where
  severity : Severity
  code : Option String
  message : String
  labels : List Label
  notes : List String
deriving DecidableEq, Repr

/-- The `files_ids` map built in `ReportBuilder::write` (src/builder.rs lines
253-260): every source of the SourceMap is added, in order, to the emitter's
file database, which assigns ids 0, 1, ... in insertion order; the hash map
records name to id, a duplicate name overwriting the earlier entry, so lookup
yields the last index at which the name occurs. -/
def buildIds (names : List String) (origin : String) : Option Nat :=
  ((names.enum.filter fun p => p.2 == origin).getLast?).map Prod.fst

/-- The per-severity count accumulated into the hash-map entry for `s` in
`ReportBuilder::diagnostics` (src/builder.rs lines 341-344). -/
def severityCounts (issues : List Issue) (s : IssueSeverity) : Nat :=
  (issues.filter fun i => i.severity == s).length

/-- The severities in ascending rank order. -/
def allSeverities : List IssueSeverity :=
  [.note, .help, .warning, .error, .bug]

/-- The `(severity, count)` entries of the generated summary (src/builder.rs
lines 341-347): the hash map holds one entry per severity that occurs among
the issues, and `entries.sort_by_key` sorts the entries ascending by their
severity key (the keys are distinct, so the count component never breaks a
tie). The sorted entry list is therefore exactly: the occurring severities in
ascending rank order, each paired with its count. -/
def summaryEntries (issues : List Issue) : List (IssueSeverity × Nat) :=
  allSeverities.filterMap fun s =>
    let c := severityCounts issues s
    if c = 0 then none else some (s, c)

/-- The generated summary note (src/builder.rs lines 349-355): each entry
rendered as `{count} {severity}(s)`, joined by `", "`, prefixed by
`summary: `. -/
def summaryNote (issues : List Issue) : String :=
  "summary: " ++ String.intercalate ", "
    ((summaryEntries issues).map fun p => toString p.2 ++ " " ++ p.1.str ++ "(s)")

/-- The Diagnostic built for one issue in `ReportBuilder::diagnostics`
(src/builder.rs lines 299-335): severity converted, code, message and notes
copied, one label per annotation (file id looked up in `files_ids`,
defaulting to 0 via `unwrap_or(&0)` when the origin is absent), then, when a
primary span is present, one appended primary label. -/
def issueDiagnostic (ids : String → Option Nat) (i : Issue) : Diagnostic :=
  { severity := i.severity.toSeverity
    code := i.code
    message := i.message
    labels :=
      (i.annotations.map fun a =>
        { style := a.type.toLabelStyle
          fileId := (ids a.origin).getD 0
          rangeStart := a.fromOffset
          rangeEnd := a.toOffset
          message := a.message }) ++
      (match i.source with
       | some (source, fromOffset, toOffset) =>
         [{ style := .primary, fileId := (ids source).getD 0,
            rangeStart := fromOffset, rangeEnd := toOffset, message := none }]
       | none => [])
    notes := i.notes }

/-- The footer Diagnostic of `ReportBuilder::diagnostics` (src/builder.rs
lines 337-363): severity `report.severity().unwrap_or(IssueSeverity::Error)`,
the footer message, and the cloned footer notes with the generated summary
note pushed when `summary` is set. -/
def footerDiagnostic (r : Report) (f : ReportFooter) : Diagnostic :=
  { severity := ((r.severity).getD .error).toSeverity
    code := none
    message := f.message
    labels := []
    notes := f.notes ++ (if f.summary then [summaryNote r.issues] else []) }

/-- Rust `ReportBuilder::diagnostics` (src/builder.rs lines 292-366): one
diagnostic per issue, in order, then the footer diagnostic when a footer is
present. -/
def ReportBuilder.diagnostics (ids : String → Option Nat) (r : Report) :
    List Diagnostic :=
  (r.issues.map (issueDiagnostic ids)) ++
    (match r.footer with
     | some f => [footerDiagnostic r f]
     | none => [])

/-- Explicit-state form of `diagnostics`: the Rust method takes `&Report` (a
shared, immutable borrow) and clones `footer.notes` before pushing the
generated summary note into the clone; the report value after the call is
returned alongside the diagnostics so that this frame condition is a provable
statement rather than an artifact of the embedding. -/
def ReportBuilder.diagnosticsSt (ids : String → Option Nat) (r : Report) :
    List Diagnostic × Report :=
  (ReportBuilder.diagnostics ids r, r)

/-- Rust `codespan_reporting::files::Error`, the error type of the external
emitter, as matched in `ReportBuilder::write` (src/builder.rs lines 268-284).
The payload of `Io` and the data of any further variant (`other`) play no
role in the claims and are dropped. -/
inductive CodespanError where
  | fileMissing
  | indexTooLarge (given max : Nat)
  | lineTooLarge (given max : Nat)
  | columnTooLarge (given max : Nat)
  | invalidCharBoundary (given : Nat)
  | io
  | other
deriving DecidableEq, Repr

/-- Rust `Error` from src/error.rs lines 5-20. -/
inductive Error where
  | fileMissing
  | indexTooLarge (given max : Nat)
  | lineTooLarge (given max : Nat)
  | columnTooLarge (given max : Nat)
  | invalidCharBoundary (given : Nat)
  | io
  | codespanError (e : CodespanError)
deriving DecidableEq, Repr

/-- The `match err` of `ReportBuilder::write` (src/builder.rs lines 268-284)
translating the emitter's error into this crate's `Error`, variant by
variant. -/
def mapEmitError : CodespanError → Error
  | .fileMissing => .fileMissing
  | .indexTooLarge given max => .indexTooLarge given max
  | .lineTooLarge given max => .lineTooLarge given max
  | .columnTooLarge given max => .columnTooLarge given max
  | .invalidCharBoundary given => .invalidCharBoundary given
  | .io => .io
  | .other => .codespanError .other

/-- The inner emit loop of `ReportBuilder::write` (src/builder.rs lines
265-286) over the diagnostics of one report. The sink is the list of chunks
successfully written so far; `emit` abstracts the external
`codespan_reporting::term::emit`, which renders one diagnostic to the sink or
fails. On the first failure the loop stops, translates the error via the
`match` of lines 268-284, and leaves the sink as it stood. -/
def writeDiags (emit : Diagnostic → Except CodespanError String) :
    List Diagnostic → List String → List String × Option Error
  | [], sink => (sink, none)
  | d :: ds, sink =>
    match emit d with
    | .ok out => writeDiags emit ds (sink ++ [out])
    | .error e => (sink, some (mapEmitError e))

/-- Rust `ReportBuilder::write` (src/builder.rs lines 230-290): the outer loop
`for report in reportable.to_reports()`, each report's diagnostics emitted in
order into the shared sink, stopping at the first error. -/
def ReportBuilder.write (emit : Diagnostic → Except CodespanError String)
    (ids : String → Option Nat) :
    List Report → List String → List String × Option Error
  | [], sink => (sink, none)
  | r :: rs, sink =>
    match writeDiags emit (ReportBuilder.diagnostics ids r) sink with
    | (sink2, none) => ReportBuilder.write emit ids rs sink2
    | (sink2, some e) => (sink2, some e)

/-- Rust `ReportBuilder::as_string` (src/builder.rs lines 212-227): write into a
fresh in-memory buffer and return its accumulated contents, or propagate the
error of the failed write. -/
def ReportBuilder.asString (emit : Diagnostic → Except CodespanError String)
    (ids : String → Option Nat) (reports : List Report) : Except Error String :=
  match ReportBuilder.write emit ids reports [] with
  | (sink, none) => .ok (String.join sink)
  | (_, some e) => .error e

/-- The outputs of a run of `emit` over a list of diagnostics, defined when
every emit succeeds. -/
def emitOuts (emit : Diagnostic → Except CodespanError String) :
    List Diagnostic → Option (List String)
  | [] => some []
  | d :: ds =>
    match emit d with
    | .ok out => (emitOuts emit ds).map (out :: ·)
    | .error _ => none

/-- Modelled from the spec: the external emitter resolves each label's file
id in its file database (`SimpleFiles`, populated in src/builder.rs lines
253-260 with one entry per SourceMap source, ids assigned in insertion
order); a required file that is not in the database yields `FileMissing`
(src/error.rs line 7, spec §7). -/
def lookupFile (files : List String) (id : Nat) : Except CodespanError String :=
  match files[id]? with
  | some name => .ok name
  | none => .error .fileMissing

/-- Number of bytes of the UTF-8 encoding of one Unicode scalar value. -/
def charWidth (c : Char) : Nat :=
  if c.val < 0x80 then 1
  else if c.val < 0x800 then 2
  else if c.val < 0x10000 then 3
  else 4

/-- Byte length of the UTF-8 encoding of a text. -/
def utf8Len (cs : List Char) : Nat :=
  (cs.map charWidth).sum

/-- Rust `Source::get_character_position` (src/source.rs lines 80-84):
`self.content[..position].chars().count()`. Slicing a Rust `str` at a byte
index that is not a char boundary (or past the end) panics; the panic is
modelled as `none`, a successful count as `some`. -/
def get_character_position : List Char → Nat → Option Nat
  | _, 0 => some 0
  | [], _ + 1 => none
  | c :: rest, q + 1 =>
    if charWidth c ≤ q + 1 then
      (get_character_position rest (q + 1 - charWidth c)).map (· + 1)
    else none

/-- Modelled from the spec (§4.1): the position resolver of the render path
is performed by the external emitter and is absent from src/; it walks the
text consuming whole scalar values. A remaining offset of 0 is a boundary and
resolves to the current 1-based line and column (columns counted in scalar
values); a remaining positive offset smaller than the width of the next
scalar value lies strictly inside it and fails with
`InvalidCharBoundary{given}` (§7), `given` being the original offset. -/
def resolveAux (given : Nat) :
    List Char → Nat → Nat → Nat → Except CodespanError (Nat × Nat)
  | _, 0, line, col => .ok (line, col)
  | [], _ + 1, _, _ => .error (.indexTooLarge given given)
  | c :: rest, q + 1, line, col =>
    if charWidth c ≤ q + 1 then
      if c = '\n' then resolveAux given rest (q + 1 - charWidth c) (line + 1) 1
      else resolveAux given rest (q + 1 - charWidth c) line (col + 1)
    else .error (.invalidCharBoundary given)

/-- Modelled from the spec (§4.1, §7): offset-to-(line, column) resolution.
An offset beyond the text fails with `IndexTooLarge{given, max}`; an offset
strictly inside a multi-byte scalar value fails with
`InvalidCharBoundary{given}` and is never rounded to a nearby boundary. -/
def resolvePosition (cs : List Char) (offset : Nat) :
    Except CodespanError (Nat × Nat) :=
  if utf8Len cs < offset then .error (.indexTooLarge offset (utf8Len cs))
  else resolveAux offset cs offset 1 1

/-- The offset lies strictly inside the multi-byte UTF-8 encoding of one
scalar value of the text. -/
def StrictlyInside (cs : List Char) (offset : Nat) : Prop :=
  ∃ pre c suf, cs = pre ++ c :: suf ∧
    utf8Len pre < offset ∧ offset < utf8Len pre + charWidth c

/-! Concrete inputs used by the evaluation and witness theorems. -/

/-- The file-id map of a SourceMap holding the single source `a.src`. -/
def exIds : String → Option Nat := buildIds ["a.src"]

/-- Rust `Issue::error("E1", "bad")`. -/
def exIssueHdr : Issue := Issue.error "E1" "bad"

/-- A report whose single issue carries an annotation whose origin names no
source of the map behind `exIds`. -/
def exReportMissing : Report :=
  Report.new.with_issue
    (exIssueHdr.with_annotation ( Annotation.primary "missing.src" 0 1))

/-- A report with one warning and one error. -/
def exReportSev : Report :=
  (Report.new.with_issue (Issue.warning "W1" "w")).with_issue (Issue.error "E1" "e")

/-- Rust `ReportFooter::new("done")`. -/
def exFooter : ReportFooter := ReportFooter.new "done"

/-- Two errors and one warning under a summarising footer. -/
def exReportSummary : Report :=
  ((((Report.new.with_issue (Issue.error "E1" "e1")).with_issue
    (Issue.error "E2" "e2")).with_issue
    (Issue.warning "W1" "w1")).with_footer exFooter)

/-- A report with a footer and no issues. -/
def exReportEmptyFooter : Report :=
  Report.new.with_footer (ReportFooter.new "x")

/-- An emitter that fails on the diagnostic whose message is `bad` and
otherwise writes one chunk per diagnostic. -/
def exEmit : Diagnostic → Except CodespanError String :=
  fun d =>
    if d.message = "bad" then .error (.indexTooLarge 9 5)
    else .ok ("emitted " ++ d.message)

/-- Three issues; under `exEmit` the second diagnostic fails. -/
def exReportEmit : Report :=
  ((Report.new.with_issue (Issue.note "N" "fine")).with_issue
    (Issue.error "E" "bad")).with_issue (Issue.help "H" "never")

/-- The text `a👋`: a 1-byte scalar value followed by a 4-byte one. -/
def exBoundaryText : List Char := ['a', '👋']

/-! Helper lemmas. -/

theorem severityMax_go (l : List IssueSeverity) :
    ∀ m : IssueSeverity, ∃ s, l.foldl severityMaxStep (some m) = some s ∧
      s ∈ m :: l ∧ ∀ t ∈ m :: l, t.rank ≤ s.rank := by
  induction l with
  | nil =>
    intro m
    exact ⟨m, rfl, List.mem_cons_self m [], by simp⟩
  | cons a t ih =>
    intro m
    by_cases h : m.rank ≤ a.rank
    · obtain ⟨s, h1, h2, h3⟩ := ih a
      refine ⟨s, ?_, ?_, ?_⟩
      · simpa [severityMaxStep, h] using h1
      · rcases List.mem_cons.1 h2 with rfl | hs
        · exact List.mem_cons_of_mem _ (List.mem_cons_self _ _)
        · exact List.mem_cons_of_mem _ (List.mem_cons_of_mem _ hs)
      · intro u hu
        rcases List.mem_cons.1 hu with rfl | hu
        · exact le_trans h (h3 a (List.mem_cons_self _ _))
        · exact h3 u hu
    · obtain ⟨s, h1, h2, h3⟩ := ih m
      refine ⟨s, ?_, ?_, ?_⟩
      · simpa [severityMaxStep, h] using h1
      · rcases List.mem_cons.1 h2 with rfl | hs
        · exact List.mem_cons_self _ _
        · exact List.mem_cons_of_mem _ (List.mem_cons_of_mem _ hs)
      · intro u hu
        rcases List.mem_cons.1 hu with rfl | hu
        · exact h3 u (List.mem_cons_self _ _)
        · rcases List.mem_cons.1 hu with rfl | hu
          · exact le_trans (le_of_not_le h) (h3 m (List.mem_cons_self _ _))
          · exact h3 u (List.mem_cons_of_mem _ hu)

theorem severityMax_none_iff (l : List IssueSeverity) :
    severityMax l = none ↔ l = [] := by
  cases l with
  | nil => simp [severityMax]
  | cons a t =>
    obtain ⟨s, h1, -, -⟩ := severityMax_go t a
    simp only [severityMax, List.foldl_cons]
    rw [show severityMaxStep none a = some a from rfl, h1]
    simp

theorem severityMax_spec (l : List IssueSeverity) (s : IssueSeverity)
    (h : severityMax l = some s) : s ∈ l ∧ ∀ t ∈ l, t.rank ≤ s.rank := by
  cases l with
  | nil => simp [severityMax] at h
  | cons a t =>
    obtain ⟨u, h1, h2, h3⟩ := severityMax_go t a
    have : severityMax (a :: t) = some u := by
      simp only [severityMax, List.foldl_cons]
      rw [show severityMaxStep none a = some a from rfl, h1]
    rw [this] at h
    cases h
    exact ⟨h2, h3⟩

/-- Claim C2: `Report::severity()` is the maximum of the issues' severities
under the order Note < Help < Warning < Error < Bug, and is absent exactly
when the issue list is empty. -/
theorem c2_severity_is_max (r : Report) :
    (r.severity = none ↔ r.issues = []) ∧
    (∀ s, r.severity = some s →
      s ∈ r.issues.map Issue.severity ∧
        ∀ t ∈ r.issues.map Issue.severity, t.rank ≤ s.rank) ∧
    IssueSeverity.note.rank < IssueSeverity.help.rank ∧
    IssueSeverity.help.rank < IssueSeverity.warning.rank ∧
    IssueSeverity.warning.rank < IssueSeverity.error.rank ∧
    IssueSeverity.error.rank < IssueSeverity.bug.rank := by
  refine ⟨?_, ?_, by decide, by decide, by decide, by decide⟩
  · rw [Report.severity, severityMax_none_iff, List.map_eq_nil_iff]
  · intro s h
    exact severityMax_spec _ s h

/-- Witness for C2 at a report holding one warning and one error: the
computed severity `Error` occurs among the issues and dominates them. -/
theorem c2_witness :
    IssueSeverity.error ∈ exReportSev.issues.map Issue.severity ∧
    ∀ t ∈ exReportSev.issues.map Issue.severity,
      t.rank ≤ IssueSeverity.error.rank :=
  (c2_severity_is_max exReportSev).2.1 .error (by decide)

theorem diagnostics_getLast_footer (ids : String → Option Nat) (r : Report)
    (f : ReportFooter) (h : r.footer = some f) :
    (ReportBuilder.diagnostics ids r).getLast? = some (footerDiagnostic r f) := by
  rw [ReportBuilder.diagnostics, h]
  exact List.getLast?_concat _

theorem summaryEntries_mem (issues : List Issue) (s : IssueSeverity) (c : Nat) :
    (s, c) ∈ summaryEntries issues ↔ severityCounts issues s = c ∧ c ≠ 0 := by
  simp only [summaryEntries, List.mem_filterMap]
  constructor
  · rintro ⟨a, -, hf⟩
    by_cases h0 : severityCounts issues a = 0
    · simp [h0] at hf
    · simp only [if_neg h0, Option.some_inj, Prod.mk.injEq] at hf
      obtain ⟨rfl, rfl⟩ := hf
      exact ⟨rfl, h0⟩
  · rintro ⟨rfl, h0⟩
    refine ⟨s, ?_, ?_⟩
    · cases s <;> simp [allSeverities]
    · simp [h0]

theorem summaryEntries_sorted (issues : List Issue) :
    List.Pairwise (fun a b : IssueSeverity × Nat => a.1.rank < b.1.rank)
      (summaryEntries issues) := by
  have hbase : List.Pairwise (fun a b : IssueSeverity => a.rank < b.rank)
      allSeverities := by decide
  refine List.Pairwise.filterMap _ ?_ hbase
  intro a a' hr b hb b' hb'
  have ha : b.1 = a := by
    by_cases h0 : severityCounts issues a = 0
    · simp [Option.mem_def, h0] at hb
    · simp only [Option.mem_def, if_neg h0, Option.some_inj] at hb
      rw [← hb]
  have ha' : b'.1 = a' := by
    by_cases h0 : severityCounts issues a' = 0
    · simp [Option.mem_def, h0] at hb'
    · simp only [Option.mem_def, if_neg h0, Option.some_inj] at hb'
      rw [← hb']
  rw [ha, ha']
  exact hr

/-- Claim C3: with a summarising footer, the last emitted diagnostic carries,
as its final note, the text `summary: ` followed by the per-severity counts,
one entry `{count} {severity}(s)` per occurring severity, in ascending
severity order, joined by `", "`. -/
theorem c3_summary_note (ids : String → Option Nat) (r : Report)
    (f : ReportFooter) (h : r.footer = some f) (hs : f.summary = true) :
    ∃ d, (ReportBuilder.diagnostics ids r).getLast? = some d ∧
      d.notes.getLast? = some (summaryNote r.issues) ∧
      summaryNote r.issues = "summary: " ++ String.intercalate ", "
        ((summaryEntries r.issues).map fun p =>
          toString p.2 ++ " " ++ p.1.str ++ "(s)") ∧
      List.Pairwise (fun a b : IssueSeverity × Nat => a.1.rank < b.1.rank)
        (summaryEntries r.issues) ∧
      ∀ s c, ((s, c) ∈ summaryEntries r.issues ↔
        severityCounts r.issues s = c ∧ c ≠ 0) := by
  refine ⟨footerDiagnostic r f, diagnostics_getLast_footer ids r f h, ?_, rfl,
    summaryEntries_sorted r.issues, fun s c => summaryEntries_mem r.issues s c⟩
  rw [footerDiagnostic]
  simp only [hs, if_pos]
  exact List.getLast?_concat _

/-- Witness for C3 at a report with two errors and one warning: the trailing
note reads `summary: 1 warning(s), 2 error(s)`, listing `1 warning(s)`
before `2 error(s)`. -/
theorem c3_witness :
    (∃ d, (ReportBuilder.diagnostics exIds exReportSummary).getLast? = some d ∧
      d.notes.getLast? = some (summaryNote exReportSummary.issues)) ∧
    summaryNote exReportSummary.issues = "summary: 1 warning(s), 2 error(s)" ∧
    "summary: 1 warning(s), 2 error(s)" =
      "summary: " ++ "1 warning(s)" ++ ", " ++ "2 error(s)" := by
  obtain ⟨d, h1, h2, -, -, -⟩ :=
    c3_summary_note exIds exReportSummary exFooter rfl rfl
  exact ⟨⟨d, h1, h2⟩, by decide, by decide⟩

/-- Claim C7: the header of an issue's rendering is
`{severity}[{code}]: {message}` when a code is present and
`{severity}: {message}` otherwise, the severity shown by its lowercase name;
the full `Display` output is that header followed only by the optional
location suffix. -/
theorem c7_issue_header (i : Issue) :
    (∀ code, i.code = some code →
      i.header = i.severity.str ++ "[" ++ code ++ "]: " ++ i.message) ∧
    (i.code = none → i.header = i.severity.str ++ ": " ++ i.message) ∧
    i.display = i.header ++ i.locationSuffix ∧
    (i.source = none → i.display = i.header) ∧
    IssueSeverity.note.str = "note" ∧ IssueSeverity.help.str = "help" ∧
    IssueSeverity.warning.str = "warning" ∧
    IssueSeverity.error.str = "error" ∧ IssueSeverity.bug.str = "bug" := by
  refine ⟨?_, ?_, rfl, ?_, rfl, rfl, rfl, rfl, rfl⟩
  · intro code h
    rw [Issue.header, h]
  · intro h
    rw [Issue.header, h]
  · intro h
    rw [Issue.display, Issue.locationSuffix, h]
    exact String.append_empty _

/-- Witness for C7 at `Issue::error("E1", "bad")`: the header is
`error[E1]: bad`. -/
theorem c7_witness :
    exIssueHdr.header =
      exIssueHdr.severity.str ++ "[" ++ "E1" ++ "]: " ++ exIssueHdr.message ∧
    exIssueHdr.header = "error[E1]: bad" :=
  ⟨(c7_issue_header exIssueHdr).1 "E1" rfl, by decide⟩

/-- Claim C8: rendering computes the summary note at render time without
mutating the footer: the report after the call is the report before it, the
emitted footer notes are the stored notes plus the generated note, and the
stored notes do not gain the generated note. -/
theorem c8_render_does_not_mutate_footer (ids : String → Option Nat)
    (r : Report) (f : ReportFooter) (h : r.footer = some f)
    (hs : f.summary = true) :
    (ReportBuilder.diagnosticsSt ids r).2 = r ∧
    (ReportBuilder.diagnosticsSt ids r).2.footer = some f ∧
    (∃ d, (ReportBuilder.diagnosticsSt ids r).1.getLast? = some d ∧
      d.notes = f.notes ++ [summaryNote r.issues]) ∧
    (summaryNote r.issues ∉ f.notes →
      ∀ g, (ReportBuilder.diagnosticsSt ids r).2.footer = some g →
        summaryNote r.issues ∉ g.notes) := by
  refine ⟨rfl, h, ⟨footerDiagnostic r f, diagnostics_getLast_footer ids r f h, ?_⟩, ?_⟩
  · rw [footerDiagnostic]
    simp [hs]
  · intro hnot g hg
    rw [show (ReportBuilder.diagnosticsSt ids r).2 = r from rfl, h] at hg
    cases hg
    exact hnot

/-- Witness for C8 at the two-error one-warning report: the report survives
the render unchanged and its stored footer notes lack the generated note. -/
theorem c8_witness :
    (ReportBuilder.diagnosticsSt exIds exReportSummary).2 = exReportSummary ∧
    (∃ d, (ReportBuilder.diagnosticsSt exIds exReportSummary).1.getLast? = some d ∧
      d.notes = exFooter.notes ++ [summaryNote exReportSummary.issues]) ∧
    ∀ g, (ReportBuilder.diagnosticsSt exIds exReportSummary).2.footer = some g →
      summaryNote exReportSummary.issues ∉ g.notes := by
  have h := c8_render_does_not_mutate_footer exIds exReportSummary exFooter rfl rfl
  exact ⟨h.1, h.2.2.1, h.2.2.2 (by decide)⟩

/-- Claim C9: `ReportFooter::new(m)` has message `m`, no notes, and the
summary flag set, so any report closed by such a footer gets exactly the
generated summary note; `with_summary` is the only switch for that flag. -/
theorem c9_footer_new_defaults (ids : String → Option Nat) (m : String)
    (r : Report) (h : r.footer = some (ReportFooter.new m)) :
    (ReportFooter.new m).message = m ∧
    (ReportFooter.new m).notes = [] ∧
    (ReportFooter.new m).summary = true ∧
    (∃ d, (ReportBuilder.diagnostics ids r).getLast? = some d ∧
      d.notes = [summaryNote r.issues]) ∧
    ∀ b, ((ReportFooter.new m).with_summary b).summary = b := by
  refine ⟨rfl, rfl, rfl,
    ⟨footerDiagnostic r (ReportFooter.new m),
      diagnostics_getLast_footer ids r _ h, ?_⟩, fun b => rfl⟩
  rw [footerDiagnostic]
  simp [ReportFooter.new]

/-- Witness for C9 at `ReportFooter::new("done")` on the two-error
one-warning report. -/
theorem c9_witness :
    (ReportFooter.new "done").notes = [] ∧
    (ReportFooter.new "done").summary = true ∧
    ∃ d, (ReportBuilder.diagnostics exIds exReportSummary).getLast? = some d ∧
      d.notes = [summaryNote exReportSummary.issues] := by
  have h := c9_footer_new_defaults exIds "done" exReportSummary rfl
  exact ⟨h.2.1, h.2.2.1, h.2.2.2.1⟩

/-- Claim C10: the footer diagnostic is emitted with the report's aggregate
severity, with `Error` as fallback exactly when the report has no issues. -/
theorem c10_footer_severity (ids : String → Option Nat) (r : Report)
    (f : ReportFooter) (h : r.footer = some f) :
    ∃ d, (ReportBuilder.diagnostics ids r).getLast? = some d ∧
      d.severity = ((r.severity).getD IssueSeverity.error).toSeverity ∧
      (∀ s, r.severity = some s → d.severity = s.toSeverity) ∧
      (r.issues = [] → d.severity = IssueSeverity.error.toSeverity) := by
  refine ⟨footerDiagnostic r f, diagnostics_getLast_footer ids r f h, rfl, ?_, ?_⟩
  · intro s hs
    rw [show (footerDiagnostic r f).severity =
      ((r.severity).getD IssueSeverity.error).toSeverity from rfl, hs]
    exact rfl
  · intro hi
    have : r.severity = none := by
      rw [Report.severity, severityMax_none_iff, List.map_eq_nil_iff]
      exact hi
    rw [show (footerDiagnostic r f).severity =
      ((r.severity).getD IssueSeverity.error).toSeverity from rfl, this]
    exact rfl

/-- Witness for C10 at a report with a footer and no issues: the footer
diagnostic is emitted with severity `Error`. -/
theorem c10_witness :
    ∃ d, (ReportBuilder.diagnostics exIds exReportEmptyFooter).getLast? = some d ∧
      d.severity = IssueSeverity.error.toSeverity := by
  obtain ⟨d, h1, -, -, h4⟩ :=
    c10_footer_severity exIds exReportEmptyFooter (ReportFooter.new "x") rfl
  exact ⟨d, h1, h4 rfl⟩

theorem utf8Len_cons (c : Char) (cs : List Char) :
    utf8Len (c :: cs) = charWidth c + utf8Len cs := by
  simp [utf8Len]

theorem utf8Len_append (a b : List Char) :
    utf8Len (a ++ b) = utf8Len a + utf8Len b := by
  simp [utf8Len]

theorem charWidth_pos (c : Char) : 0 < charWidth c := by
  rw [charWidth]
  split_ifs <;> omega

theorem resolveAux_inside (pre : List Char) :
    ∀ (c : Char) (suf : List Char) (given q line col : Nat),
      utf8Len pre < q → q < utf8Len pre + charWidth c →
      resolveAux given (pre ++ c :: suf) q line col =
        .error (.invalidCharBoundary given) := by
  induction pre with
  | nil =>
    intro c suf given q line col h1 h2
    simp only [utf8Len, List.map_nil, List.sum_nil] at h1 h2
    obtain ⟨q', rfl⟩ : ∃ q', q = q' + 1 := ⟨q - 1, by omega⟩
    simp only [List.nil_append, resolveAux]
    rw [if_neg (by omega)]
  | cons p pre ih =>
    intro c suf given q line col h1 h2
    rw [utf8Len_cons] at h1 h2
    have hp := charWidth_pos p
    obtain ⟨q', rfl⟩ : ∃ q', q = q' + 1 := ⟨q - 1, by omega⟩
    simp only [List.cons_append, resolveAux]
    rw [if_pos (by omega)]
    have h1' : utf8Len pre < q' + 1 - charWidth p := by omega
    have h2' : q' + 1 - charWidth p < utf8Len pre + charWidth c := by omega
    by_cases hnl : p = '\n'
    · rw [if_pos hnl]
      exact ih c suf given _ _ _ h1' h2'
    · rw [if_neg hnl]
      exact ih c suf given _ _ _ h1' h2'

theorem get_character_position_inside (pre : List Char) :
    ∀ (c : Char) (suf : List Char) (q : Nat),
      utf8Len pre < q → q < utf8Len pre + charWidth c →
      get_character_position (pre ++ c :: suf) q = none := by
  induction pre with
  | nil =>
    intro c suf q h1 h2
    simp only [utf8Len, List.map_nil, List.sum_nil] at h1 h2
    obtain ⟨q', rfl⟩ : ∃ q', q = q' + 1 := ⟨q - 1, by omega⟩
    simp only [List.nil_append, get_character_position]
    rw [if_neg (by omega)]
  | cons p pre ih =>
    intro c suf q h1 h2
    rw [utf8Len_cons] at h1 h2
    have hp := charWidth_pos p
    obtain ⟨q', rfl⟩ : ∃ q', q = q' + 1 := ⟨q - 1, by omega⟩
    simp only [List.cons_append, get_character_position]
    rw [if_pos (by omega)]
    have h1' : utf8Len pre < q' + 1 - charWidth p := by omega
    have h2' : q' + 1 - charWidth p < utf8Len pre + charWidth c := by omega
    simp only [List.append_eq]
    rw [ih c suf _ h1' h2']
    rfl

/-- Claim C4: an offset that lies strictly inside a multi-byte UTF-8 scalar
value makes position resolution fail with `InvalidCharBoundary` at exactly
that offset (surfaced as `Error::InvalidCharBoundary` by the writer's error
translation), and makes `Source::get_character_position` fail rather than
yield a shifted count. -/
theorem c4_invalid_char_boundary (cs : List Char) (offset : Nat)
    (h : StrictlyInside cs offset) :
    resolvePosition cs offset = .error (.invalidCharBoundary offset) ∧
    get_character_position cs offset = none ∧
    mapEmitError (.invalidCharBoundary offset) =
      Error.invalidCharBoundary offset := by
  obtain ⟨pre, c, suf, rfl, h1, h2⟩ := h
  refine ⟨?_, get_character_position_inside pre c suf offset h1 h2, rfl⟩
  rw [resolvePosition, if_neg ?_]
  · exact resolveAux_inside pre c suf offset offset 1 1 h1 h2
  · rw [utf8Len_append, utf8Len_cons]
    omega

/-- Witness for C4 at the text `a👋` and offset 2, one byte into the 4-byte
emoji. -/
theorem c4_witness :
    StrictlyInside exBoundaryText 2 ∧
    resolvePosition exBoundaryText 2 = .error (.invalidCharBoundary 2) ∧
    get_character_position exBoundaryText 2 = none := by
  have hin : StrictlyInside exBoundaryText 2 :=
    ⟨['a'], '👋', [], rfl, by decide, by decide⟩
  have h := c4_invalid_char_boundary exBoundaryText 2 hin
  exact ⟨hin, h.1, h.2.1⟩

theorem writeDiags_split (emit : Diagnostic → Except CodespanError String)
    (pre : List Diagnostic) :
    ∀ (post : List Diagnostic) (d : Diagnostic) (e : CodespanError)
      (outs sink : List String),
      emitOuts emit pre = some outs → emit d = .error e →
      writeDiags emit (pre ++ d :: post) sink =
        (sink ++ outs, some (mapEmitError e)) := by
  induction pre with
  | nil =>
    intro post d e outs sink hpre hd
    rw [emitOuts] at hpre
    cases hpre
    simp only [List.nil_append, writeDiags, hd, List.append_nil]
  | cons p pre ih =>
    intro post d e outs sink hpre hd
    rw [emitOuts] at hpre
    cases hp : emit p with
    | error e2 => rw [hp] at hpre; cases hpre
    | ok o =>
      rw [hp] at hpre
      cases houts : emitOuts emit pre with
      | none => rw [houts] at hpre; cases hpre
      | some outs2 =>
        rw [houts] at hpre
        cases hpre
        simp only [List.cons_append, writeDiags, hp, List.append_eq]
        rw [ih post d e outs2 (sink ++ [o]) houts hd]
        simp

theorem write_eq_flatten (emit : Diagnostic → Except CodespanError String)
    (ids : String → Option Nat) :
    ∀ (reports : List Report) (sink : List String),
      ReportBuilder.write emit ids reports sink =
        writeDiags emit
          ((reports.map (ReportBuilder.diagnostics ids)).flatten) sink := by
  have happ : ∀ (l1 l2 : List Diagnostic) (sink : List String),
      writeDiags emit (l1 ++ l2) sink =
        (match writeDiags emit l1 sink with
         | (s, none) => writeDiags emit l2 s
         | (s, some e) => (s, some e)) := by
    intro l1
    induction l1 with
    | nil => intro l2 sink; rfl
    | cons d ds ih =>
      intro l2 sink
      cases h : emit d with
      | ok out =>
        simp only [List.cons_append, writeDiags, h]
        exact ih l2 (sink ++ [out])
      | error e =>
        simp only [List.cons_append, writeDiags, h]
  intro reports
  induction reports with
  | nil => intro sink; rfl
  | cons r rs ih =>
    intro sink
    simp only [List.map_cons, List.flatten_cons, ReportBuilder.write, happ]
    cases hw : writeDiags emit (ReportBuilder.diagnostics ids r) sink with
    | mk sink2 err =>
      cases err with
      | none => exact ih sink2
      | some e => rfl

theorem writeDiags_shift (emit : Diagnostic → Except CodespanError String)
    (l : List Diagnostic) :
    ∀ sink, writeDiags emit l sink =
      (sink ++ (writeDiags emit l []).1, (writeDiags emit l []).2) := by
  induction l with
  | nil => intro sink; simp [writeDiags]
  | cons d ds ih =>
    intro sink
    cases h : emit d with
    | ok out =>
      simp only [writeDiags, h]
      rw [ih (sink ++ [out]), ih ([] ++ [out])]
      simp
    | error e =>
      simp only [writeDiags, h]
      simp

/-- Claim C5: `ReportBuilder::write` stops at the first emit error: with the
emitted diagnostic sequence split around the first failing diagnostic, the
result is exactly the translated variant of that diagnostic's error, the sink
keeps the prior successful writes, and nothing after the failing diagnostic
is emitted (the result does not depend on the remainder). -/
theorem c5_write_stops_at_first_error
    (emit : Diagnostic → Except CodespanError String)
    (ids : String → Option Nat) (reports : List Report) (sink : List String)
    (pre post : List Diagnostic) (d : Diagnostic) (e : CodespanError)
    (outs : List String)
    (hsplit : (reports.map (ReportBuilder.diagnostics ids)).flatten =
      pre ++ d :: post)
    (hpre : emitOuts emit pre = some outs)
    (hd : emit d = .error e) :
    ReportBuilder.write emit ids reports sink =
      (sink ++ outs, some (mapEmitError e)) := by
  rw [write_eq_flatten emit ids reports sink, hsplit]
  exact writeDiags_split emit pre post d e outs sink hpre hd

/-- Witness for C5: under an emitter that fails on the second of three
diagnostics with `IndexTooLarge{9, 5}`, the write keeps the first chunk,
surfaces `Error::IndexTooLarge{9, 5}`, and emits nothing further. -/
theorem c5_witness :
    ReportBuilder.write exEmit exIds [exReportEmit] [] =
      (["emitted fine"], some (Error.indexTooLarge 9 5)) := by
  have h := c5_write_stops_at_first_error exEmit exIds [exReportEmit] []
    [issueDiagnostic exIds (Issue.note "N" "fine")]
    [issueDiagnostic exIds (Issue.help "H" "never")]
    (issueDiagnostic exIds (Issue.error "E" "bad"))
    (.indexTooLarge 9 5) ["emitted fine"]
    (by decide) (by decide) rfl
  simpa [mapEmitError] using h

/-- Claim C6: rendering is deterministic and idempotent: `as_string` is a
pure function of the builder's inputs, and the sink contents produced by a
write are the prior sink contents followed by the output of the same write
into a fresh sink, so two runs into fresh sinks yield byte-identical
output. -/
theorem c6_as_string_deterministic
    (emit : Diagnostic → Except CodespanError String)
    (ids : String → Option Nat) (reports : List Report) :
    ReportBuilder.asString emit ids reports =
      ReportBuilder.asString emit ids reports ∧
    ∀ sink, ReportBuilder.write emit ids reports sink =
      (sink ++ (ReportBuilder.write emit ids reports []).1,
        (ReportBuilder.write emit ids reports []).2) := by
  refine ⟨rfl, fun sink => ?_⟩
  rw [write_eq_flatten emit ids reports sink,
    write_eq_flatten emit ids reports []]
  rw [writeDiags_shift emit _ sink, writeDiags_shift emit _ []]

/-- Claim C1, evaluated at the failing input: with the SourceMap holding only
`a.src`, an annotation whose origin `missing.src` names no source is not
rejected: its label's file id defaults to 0 via `unwrap_or(&0)`
(src/builder.rs line 314), the emitter's file lookup for id 0 succeeds and
yields `a.src` — a different source — so the render neither fails with
`FileMissing` nor suppresses the excerpt; `FileMissing` would arise only
from an empty file database. -/
theorem c1_missing_origin_defaults_to_file_zero :
    buildIds ["a.src"] "missing.src" = none ∧
    ((ReportBuilder.diagnostics (buildIds ["a.src"]) exReportMissing).map
      fun d => d.labels.map Label.fileId) = [[0]] ∧
    buildIds ["a.src"] "a.src" = some 0 ∧
    lookupFile ["a.src"] 0 = .ok "a.src" ∧
    "a.src" ≠ "missing.src" ∧
    lookupFile [] 0 = .error .fileMissing := by
  exact ⟨by decide, by decide, by decide, rfl, by decide, rfl⟩

end AraReporting
